import Mathlib

/-!
Verification of the rating engine of `data_fetcher.py` (VEX-rankings).

The definitions below are a shallow embedding of the core of the repository:
* `compute_elo_sos` (lines 278-327): Elo ratings and strength-of-schedule,
* the filter / rescale / publish steps of `run_once` (lines 988-1010).

Python floats are modelled as real numbers (exact arithmetic); Python's
banker's rounding `round(x, d)` is modelled by `pyRound`.  The two
`defaultdict`s of `compute_elo_sos` are modelled as total functions together
with an explicit, insertion-ordered key list (`eloKeys`, `oppKeys`), because
the Python code iterates over the dict keys (and a `defaultdict` inserts a key
on every read access).  The skills columns of `run_once` are merely merged in
and never consulted by the exclusion filter or the rescale step, so the rows
carry only the columns the rating engine produces.
-/

namespace VexRankings

/-- `K_FACTOR = 32` (data_fetcher.py line 48). -/
def K_FACTOR : ℝ := 32

/-- `INITIAL_ELO = 1500` (data_fetcher.py line 49). -/
def INITIAL_ELO : ℝ := 1500

/-- The mutable state of `compute_elo_sos`: the two defaultdicts.
`eloKeys` / `oppKeys` record which keys are present in each dict (in
insertion order); `elo` and `opp` give the stored values, with the
defaultdict defaults (`INITIAL_ELO`, `[]`) for absent keys. -/
structure EloState where
  eloKeys : List String
  elo : String → ℝ
  oppKeys : List String
  opp : String → List String

/-- One normalized match record as produced by `_parse_match` and consumed by
the `compute_elo_sos` loop (columns `red_teams`, `blue_teams`, `red_score`,
`blue_score`). -/
structure MatchRec where
  red_teams : List String
  blue_teams : List String
  red_score : ℤ
  blue_score : ℤ

/-- One row of the output table: `team_name`, `elo`, `strength_of_schedule`. -/
structure Row where
  team_name : String
  elo : ℝ
  strength_of_schedule : ℝ

/-- Python dict key insertion: a key is appended iff it is not yet present. -/
def insertKey (ks : List String) (t : String) : List String :=
  if t ∈ ks then ks else ks ++ [t]

/-- The expected score `ea = 1 / (1 + 10 ** ((elo[b] - elo[a]) / 400))`
(data_fetcher.py line 292). -/
noncomputable def expScore (ra rb : ℝ) : ℝ :=
  1 / (1 + (10 : ℝ) ^ ((rb - ra) / 400))

/-- The body of the inner `for b in loser_teams` loop of `update`
(data_fetcher.py lines 292-299): one pairwise Elo update of `a` against `b`,
performed sequentially (`elo[a] += ...` before `elo[b] += ...`), plus the two
opponent-list appends.  Reading `elo[b]` and `elo[a]` inserts those keys into
the elo defaultdict; `opponents[a].append`/`opponents[b].append` insert `a`
then `b` into the opponents defaultdict. -/
noncomputable def updatePair (draw : Bool) (s : EloState) (a b : String) : EloState :=
  let ea := expScore (s.elo a) (s.elo b)
  let eb := 1 - ea
  let sa : ℝ := if draw then 0.5 else 1.0
  let sb : ℝ := if draw then 0.5 else 0.0
  let elo1 : String → ℝ := fun t => if t = a then s.elo a + K_FACTOR * (sa - ea) else s.elo t
  let elo2 : String → ℝ := fun t => if t = b then elo1 b + K_FACTOR * (sb - eb) else elo1 t
  let opp1 : String → List String := fun t => if t = a then s.opp a ++ [b] else s.opp t
  let opp2 : String → List String := fun t => if t = b then opp1 b ++ [a] else opp1 t
  { eloKeys := insertKey (insertKey s.eloKeys b) a
    elo := elo2
    oppKeys := insertKey (insertKey s.oppKeys a) b
    opp := opp2 }

/-- The inner `for b in loser_teams` loop of `update` for a fixed winner `a`. -/
noncomputable def updateOne (draw : Bool) (a : String) (s : EloState)
    (loser_teams : List String) : EloState :=
  loser_teams.foldl (fun s b => updatePair draw s a b) s

/-- The nested `update(winner_teams, loser_teams, draw)` closure of
`compute_elo_sos` (data_fetcher.py lines 289-299). -/
noncomputable def update (s : EloState) (winner_teams loser_teams : List String)
    (draw : Bool) : EloState :=
  winner_teams.foldl (fun s a => updateOne draw a s loser_teams) s

/-- The body of the `for _, row in matches_df.iterrows()` loop
(data_fetcher.py lines 301-313): skip a record with an empty roster, otherwise
classify by score and apply `update`. -/
noncomputable def processMatch (s : EloState) (m : MatchRec) : EloState :=
  if m.red_teams = [] ∨ m.blue_teams = [] then s
  else if m.red_score > m.blue_score then update s m.red_teams m.blue_teams false
  else if m.blue_score > m.red_score then update s m.blue_teams m.red_teams false
  else update s m.red_teams m.blue_teams true

/-- The initial state of `compute_elo_sos` (lines 282-287): every known team
is pre-seeded into the elo defaultdict at `INITIAL_ELO`; the opponents dict
starts empty. -/
noncomputable def initState (all_teams : List String) : EloState :=
  { eloKeys := all_teams.foldl insertKey []
    elo := fun _ => INITIAL_ELO
    oppKeys := []
    opp := fun _ => [] }

/-- Python 3 `round(x * 10^d) / 10^d` rounding of the integer part:
round-half-to-even (banker's rounding). -/
noncomputable def roundEven (x : ℝ) : ℤ :=
  if Int.fract x = 1 / 2 then 2 * round (x / 2) else round x

/-- Python's `round(x, d)` modelled in exact real arithmetic. -/
noncomputable def pyRound (x : ℝ) (d : ℕ) : ℝ :=
  (roundEven (x * 10 ^ d) : ℝ) / 10 ^ d

/-- The strength-of-schedule value published for team `t` (lines 315-324):
the `sos` dict gets an entry for every key of the `opponents` dict (the mean
opponent elo when the list is non-empty, else `INITIAL_ELO`), and the record
pass reads `sos.get(t, INITIAL_ELO)`. -/
noncomputable def sosVal (s : EloState) (t : String) : ℝ :=
  if t ∈ s.oppKeys then
    if s.opp t ≠ [] then ((s.opp t).map s.elo).sum / ((s.opp t).length : ℝ)
    else INITIAL_ELO
  else INITIAL_ELO

/-- `compute_elo_sos(matches_df, all_teams)` (data_fetcher.py lines 278-327):
fold the match loop over the initial state, then emit one row per key of the
elo dict with `round(elo[t], 2)` and `round(sos.get(t, INITIAL_ELO), 4)`. -/
noncomputable def compute_elo_sos (ms : List MatchRec) (all_teams : List String) :
    List Row :=
  let s := ms.foldl processMatch (initState all_teams)
  s.eloKeys.map (fun t =>
    { team_name := t
      elo := pyRound (s.elo t) 2
      strength_of_schedule := pyRound (sosVal s t) 4 })

open Classical in
/-- The exclusion filter of `run_once` (data_fetcher.py line 1000):
`df = df[~((df["elo"] == INITIAL_ELO) & (df["strength_of_schedule"] == INITIAL_ELO))]`.

The `open Classical` provides decidability of the real-valued comparisons. -/
noncomputable def filterTable (rows : List Row) : List Row :=
  rows.filter (fun r =>
    decide (¬(r.elo = INITIAL_ELO ∧ r.strength_of_schedule = INITIAL_ELO)))

/-- `df["strength_of_schedule"].min()` for the non-empty frames the rescale
step looks at. -/
noncomputable def listMin : List ℝ → ℝ
  | [] => 0
  | x :: xs => xs.foldl min x

/-- `df["strength_of_schedule"].max()` for the non-empty frames the rescale
step looks at. -/
noncomputable def listMax : List ℝ → ℝ
  | [] => 0
  | x :: xs => xs.foldl max x

open Classical in
/-- The SoS rescale step of `run_once` (data_fetcher.py lines 1003-1008):
only when more than one row remains and `raw_max > raw_min`, remap the column
by `0.30 + (v - raw_min) / (raw_max - raw_min) * 0.50` and then round it to 4
decimal places (two successive column assignments, hence two maps). -/
noncomputable def rescaleTable (rows : List Row) : List Row :=
  if 1 < rows.length then
    let raw_min := listMin (rows.map (fun r => r.strength_of_schedule))
    let raw_max := listMax (rows.map (fun r => r.strength_of_schedule))
    if raw_max > raw_min then
      (rows.map (fun r => { r with strength_of_schedule :=
          0.30 + (r.strength_of_schedule - raw_min) / (raw_max - raw_min) * 0.50 })).map
        (fun r => { r with strength_of_schedule := pyRound r.strength_of_schedule 4 })
    else rows
  else rows

/-- The output-producing tail of `run_once` (data_fetcher.py lines 988-1010):
`none` models the early `return` on an empty match log (the previously
published table is left as is); otherwise the published table is the filtered
and rescaled rating table. -/
noncomputable def run_once_table (ms : List MatchRec) (all_teams : List String) :
    Option (List Row) :=
  if ms.isEmpty then none
  else some (rescaleTable (filterTable (compute_elo_sos ms all_teams)))

/-! ### Basic facts about keys, rounding and the expected score -/

lemma mem_insertKey {ks : List String} {u t : String} :
    t ∈ insertKey ks u ↔ t ∈ ks ∨ t = u := by
  unfold insertKey
  by_cases h : u ∈ ks
  · rw [if_pos h]
    constructor
    · exact Or.inl
    · rintro (h' | rfl)
      · exact h'
      · exact h
  · rw [if_neg h]
    simp

lemma pyRound_eq_self {x : ℝ} {d : ℕ} (n : ℤ) (h : x * 10 ^ d = (n : ℝ)) :
    pyRound x d = x := by
  unfold pyRound roundEven
  rw [h, Int.fract_intCast, if_neg (by norm_num), round_intCast, ← h]
  exact mul_div_cancel_right₀ x (pow_ne_zero d (by norm_num))

lemma expScore_pos (ra rb : ℝ) : 0 < expScore ra rb := by
  have h := Real.rpow_pos_of_pos (show (0 : ℝ) < 10 by norm_num) ((rb - ra) / 400)
  have hd : 0 < 1 + (10 : ℝ) ^ ((rb - ra) / 400) := by linarith
  exact one_div_pos.mpr hd

lemma expScore_lt_one (ra rb : ℝ) : expScore ra rb < 1 := by
  have h := Real.rpow_pos_of_pos (show (0 : ℝ) < 10 by norm_num) ((rb - ra) / 400)
  have hd : 0 < 1 + (10 : ℝ) ^ ((rb - ra) / 400) := by linarith
  unfold expScore
  rw [div_lt_one hd]
  linarith

lemma half_lt_expScore {ra rb : ℝ} (h : rb < ra) : 1 / 2 < expScore ra rb := by
  have hneg : (rb - ra) / 400 < 0 :=
    div_neg_of_neg_of_pos (by linarith) (by norm_num)
  have h1 : (10 : ℝ) ^ ((rb - ra) / 400) < 1 :=
    Real.rpow_lt_one_of_one_lt_of_neg (by norm_num) hneg
  have h0 := Real.rpow_pos_of_pos (show (0 : ℝ) < 10 by norm_num) ((rb - ra) / 400)
  unfold expScore
  exact one_div_lt_one_div_of_lt (by linarith) (by linarith)

lemma expScore_self (r : ℝ) : expScore r r = 1 / 2 := by
  unfold expScore
  rw [sub_self, zero_div, Real.rpow_zero]
  norm_num

lemma expScore_congr_sub {ra rb ra' rb' : ℝ} (h : rb - ra = rb' - ra') :
    expScore ra rb = expScore ra' rb' := by
  unfold expScore
  rw [h]

/-! ### Field equations for one pairwise update -/

lemma updatePair_elo_a {a b : String} (d : Bool) (s : EloState) (hab : a ≠ b) :
    (updatePair d s a b).elo a
      = s.elo a + K_FACTOR * ((if d then (0.5 : ℝ) else 1.0)
          - expScore (s.elo a) (s.elo b)) := by
  simp [updatePair, hab]

lemma updatePair_elo_b {a b : String} (d : Bool) (s : EloState) (hab : a ≠ b) :
    (updatePair d s a b).elo b
      = s.elo b + K_FACTOR * ((if d then (0.5 : ℝ) else 0.0)
          - (1 - expScore (s.elo a) (s.elo b))) := by
  simp [updatePair, Ne.symm hab]

lemma updatePair_elo_ne {t a b : String} (d : Bool) (s : EloState)
    (hta : t ≠ a) (htb : t ≠ b) : (updatePair d s a b).elo t = s.elo t := by
  simp [updatePair, hta, htb]

lemma updatePair_opp_a {a b : String} (d : Bool) (s : EloState) (hab : a ≠ b) :
    (updatePair d s a b).opp a = s.opp a ++ [b] := by
  simp [updatePair, hab]

lemma updatePair_opp_b {a b : String} (d : Bool) (s : EloState) (hab : a ≠ b) :
    (updatePair d s a b).opp b = s.opp b ++ [a] := by
  simp [updatePair, Ne.symm hab]

lemma updatePair_opp_ne {t a b : String} (d : Bool) (s : EloState)
    (hta : t ≠ a) (htb : t ≠ b) : (updatePair d s a b).opp t = s.opp t := by
  simp [updatePair, hta, htb]

lemma updatePair_eloKeys (d : Bool) (s : EloState) (a b : String) :
    (updatePair d s a b).eloKeys = insertKey (insertKey s.eloKeys b) a := rfl

lemma updatePair_oppKeys (d : Bool) (s : EloState) (a b : String) :
    (updatePair d s a b).oppKeys = insertKey (insertKey s.oppKeys a) b := rfl

lemma K_FACTOR_eq : K_FACTOR = 32 := rfl

lemma INITIAL_ELO_eq : INITIAL_ELO = 1500 := rfl

lemma updatePair_win_elo_a {a b : String} (s : EloState) (hab : a ≠ b) :
    (updatePair false s a b).elo a
      = s.elo a + 32 * (1 - expScore (s.elo a) (s.elo b)) := by
  rw [updatePair_elo_a false s hab]
  norm_num [K_FACTOR_eq]

lemma updatePair_win_elo_b {a b : String} (s : EloState) (hab : a ≠ b) :
    (updatePair false s a b).elo b
      = s.elo b - 32 * (1 - expScore (s.elo a) (s.elo b)) := by
  rw [updatePair_elo_b false s hab]
  norm_num [K_FACTOR_eq]
  ring

lemma updatePair_win_gain {a b : String} (s : EloState) (hab : a ≠ b) :
    s.elo a < (updatePair false s a b).elo a := by
  rw [updatePair_win_elo_a s hab]
  have h := expScore_lt_one (s.elo a) (s.elo b)
  linarith

lemma updatePair_win_loss {a b : String} (s : EloState) (hab : a ≠ b) :
    (updatePair false s a b).elo b < s.elo b := by
  rw [updatePair_win_elo_b s hab]
  have h := expScore_lt_one (s.elo a) (s.elo b)
  linarith

/-! ### Frame and sign lemmas for the two nested update loops -/

lemma updateOne_nil (d : Bool) (a : String) (s : EloState) :
    updateOne d a s [] = s := rfl

lemma updateOne_cons (d : Bool) (a b : String) (s : EloState) (l : List String) :
    updateOne d a s (b :: l) = updateOne d a (updatePair d s a b) l := rfl

lemma update_nil (d : Bool) (s : EloState) (ls : List String) :
    update s [] ls d = s := rfl

lemma update_cons (d : Bool) (s : EloState) (a : String) (ws ls : List String) :
    update s (a :: ws) ls d = update (updateOne d a s ls) ws ls d := rfl

lemma updateOne_elo_ne {t a : String} {l : List String} (d : Bool) (s : EloState)
    (hta : t ≠ a) (htl : t ∉ l) : (updateOne d a s l).elo t = s.elo t := by
  induction l generalizing s with
  | nil => rfl
  | cons b l ih =>
    rw [updateOne_cons]
    rw [ih _ (fun h => htl (List.mem_cons_of_mem b h))]
    exact updatePair_elo_ne d s hta (fun h => htl (h ▸ List.mem_cons_self b l))

lemma updateOne_opp_ne {t a : String} {l : List String} (d : Bool) (s : EloState)
    (hta : t ≠ a) (htl : t ∉ l) : (updateOne d a s l).opp t = s.opp t := by
  induction l generalizing s with
  | nil => rfl
  | cons b l ih =>
    rw [updateOne_cons]
    rw [ih _ (fun h => htl (List.mem_cons_of_mem b h))]
    exact updatePair_opp_ne d s hta (fun h => htl (h ▸ List.mem_cons_self b l))

lemma updateOne_elo_le {t a : String} {l : List String} (s : EloState)
    (hta : t ≠ a) : (updateOne false a s l).elo t ≤ s.elo t := by
  induction l generalizing s with
  | nil => exact le_refl _
  | cons b l ih =>
    rw [updateOne_cons]
    refine le_trans (ih _) ?_
    by_cases htb : t = b
    · subst htb
      exact le_of_lt (updatePair_win_loss s (Ne.symm hta))
    · rw [updatePair_elo_ne false s hta htb]

lemma updateOne_elo_lt {t a : String} {l : List String} (s : EloState)
    (hta : t ≠ a) (htl : t ∈ l) : (updateOne false a s l).elo t < s.elo t := by
  induction l generalizing s with
  | nil => exact absurd htl (List.not_mem_nil t)
  | cons b l ih =>
    rw [updateOne_cons]
    by_cases htb : t = b
    · subst htb
      exact lt_of_le_of_lt (updateOne_elo_le _ hta)
        (updatePair_win_loss s (Ne.symm hta))
    · rw [List.mem_cons] at htl
      rcases htl with h | h
      · exact absurd h htb
      · rw [← updatePair_elo_ne false s hta htb] at *
        exact ih _ h

lemma updateOne_elo_ge {a : String} {l : List String} (s : EloState)
    (hal : a ∉ l) : s.elo a ≤ (updateOne false a s l).elo a := by
  induction l generalizing s with
  | nil => exact le_refl _
  | cons b l ih =>
    rw [updateOne_cons]
    have hab : a ≠ b := fun h => hal (h ▸ List.mem_cons_self b l)
    refine le_trans (le_of_lt (updatePair_win_gain s hab)) ?_
    exact ih _ (fun h => hal (List.mem_cons_of_mem b h))

lemma updateOne_elo_gt {a : String} {l : List String} (s : EloState)
    (hal : a ∉ l) (hl : l ≠ []) : s.elo a < (updateOne false a s l).elo a := by
  cases l with
  | nil => exact absurd rfl hl
  | cons b l =>
    rw [updateOne_cons]
    have hab : a ≠ b := fun h => hal (h ▸ List.mem_cons_self b l)
    refine lt_of_lt_of_le (updatePair_win_gain s hab) ?_
    exact updateOne_elo_ge _ (fun h => hal (List.mem_cons_of_mem b h))

lemma update_elo_ne {t : String} {ws ls : List String} (d : Bool) (s : EloState)
    (htw : t ∉ ws) (htl : t ∉ ls) : (update s ws ls d).elo t = s.elo t := by
  induction ws generalizing s with
  | nil => rfl
  | cons a ws ih =>
    rw [update_cons]
    rw [ih _ (fun h => htw (List.mem_cons_of_mem a h))]
    exact updateOne_elo_ne d s (fun h => htw (h ▸ List.mem_cons_self a ws)) htl

lemma update_opp_ne {t : String} {ws ls : List String} (d : Bool) (s : EloState)
    (htw : t ∉ ws) (htl : t ∉ ls) : (update s ws ls d).opp t = s.opp t := by
  induction ws generalizing s with
  | nil => rfl
  | cons a ws ih =>
    rw [update_cons]
    rw [ih _ (fun h => htw (List.mem_cons_of_mem a h))]
    exact updateOne_opp_ne d s (fun h => htw (h ▸ List.mem_cons_self a ws)) htl

lemma update_winner_le {w : String} {ws ls : List String} (s : EloState)
    (hwl : w ∉ ls) : s.elo w ≤ (update s ws ls false).elo w := by
  induction ws generalizing s with
  | nil => exact le_refl _
  | cons a ws ih =>
    rw [update_cons]
    refine le_trans ?_ (ih _)
    by_cases haw : w = a
    · subst haw
      exact updateOne_elo_ge s hwl
    · rw [updateOne_elo_ne false s haw hwl]

lemma update_winner_lt {w : String} {ws ls : List String} (s : EloState)
    (hw : w ∈ ws) (hwl : w ∉ ls) (hl : ls ≠ []) :
    s.elo w < (update s ws ls false).elo w := by
  induction ws generalizing s with
  | nil => exact absurd hw (List.not_mem_nil w)
  | cons a ws ih =>
    rw [update_cons]
    by_cases haw : w = a
    · subst haw
      exact lt_of_lt_of_le (updateOne_elo_gt s hwl hl) (update_winner_le _ hwl)
    · rw [List.mem_cons] at hw
      rcases hw with h | h
      · exact absurd h haw
      · rw [← updateOne_elo_ne false s haw hwl] at *
        exact ih _ h

lemma update_loser_le {b : String} {ws ls : List String} (s : EloState)
    (hbw : b ∉ ws) : (update s ws ls false).elo b ≤ s.elo b := by
  induction ws generalizing s with
  | nil => exact le_refl _
  | cons a ws ih =>
    rw [update_cons]
    have hba : b ≠ a := fun h => hbw (h ▸ List.mem_cons_self a ws)
    refine le_trans (ih _ (fun h => hbw (List.mem_cons_of_mem a h))) ?_
    exact updateOne_elo_le s hba

lemma update_loser_lt {b : String} {ws ls : List String} (s : EloState)
    (hbw : b ∉ ws) (hb : b ∈ ls) (hw : ws ≠ []) :
    (update s ws ls false).elo b < s.elo b := by
  cases ws with
  | nil => exact absurd rfl hw
  | cons a ws =>
    rw [update_cons]
    have hba : b ≠ a := fun h => hbw (h ▸ List.mem_cons_self a ws)
    refine lt_of_le_of_lt
      (update_loser_le _ (fun h => hbw (List.mem_cons_of_mem a h))) ?_
    exact updateOne_elo_lt s hba hb

/-! ### The opponents-dict invariant: a key is present iff its list is non-empty

Every entry of the `opponents` defaultdict is created by an `append`, so a
present key always carries a non-empty list.  This connects the `sos` dict
(built from `opponents.items()`) with the `sos.get(t, INITIAL_ELO)` lookup. -/

def goodState (s : EloState) : Prop :=
  ∀ t, t ∈ s.oppKeys ↔ s.opp t ≠ []

lemma updatePair_opp_a_ne_nil (d : Bool) (s : EloState) (a b : String) :
    (updatePair d s a b).opp a ≠ [] := by
  by_cases hab : a = b
  · subst hab
    simp [updatePair]
  · rw [updatePair_opp_a d s hab]
    simp

lemma updatePair_opp_b_ne_nil (d : Bool) (s : EloState) (a b : String) :
    (updatePair d s a b).opp b ≠ [] := by
  simp [updatePair]

lemma goodState_updatePair {s : EloState} (d : Bool) (a b : String)
    (h : goodState s) : goodState (updatePair d s a b) := by
  intro t
  rw [updatePair_oppKeys, mem_insertKey, mem_insertKey]
  by_cases htb : t = b
  · subst htb
    exact ⟨fun _ => updatePair_opp_b_ne_nil d s a t, fun _ => Or.inr rfl⟩
  · by_cases hta : t = a
    · subst hta
      exact ⟨fun _ => updatePair_opp_a_ne_nil d s t b, fun _ => Or.inl (Or.inr rfl)⟩
    · rw [updatePair_opp_ne d s hta htb]
      constructor
      · rintro ((hk | h1) | h2)
        · exact (h t).mp hk
        · exact absurd h1 hta
        · exact absurd h2 htb
      · intro hne
        exact Or.inl (Or.inl ((h t).mpr hne))

lemma goodState_updateOne {s : EloState} {l : List String} (d : Bool) (a : String)
    (h : goodState s) : goodState (updateOne d a s l) := by
  induction l generalizing s with
  | nil => exact h
  | cons b l ih => exact ih (goodState_updatePair d a b h)

lemma goodState_update {s : EloState} {ws ls : List String} (d : Bool)
    (h : goodState s) : goodState (update s ws ls d) := by
  induction ws generalizing s with
  | nil => exact h
  | cons a ws ih => exact ih (goodState_updateOne d a h)

lemma goodState_processMatch {s : EloState} (m : MatchRec) (h : goodState s) :
    goodState (processMatch s m) := by
  unfold processMatch
  split
  · exact h
  · split
    · exact goodState_update false h
    · split
      · exact goodState_update false h
      · exact goodState_update true h

lemma goodState_initState (all_teams : List String) : goodState (initState all_teams) := by
  intro t
  simp [initState]

lemma goodState_foldl {ms : List MatchRec} {s : EloState} (h : goodState s) :
    goodState (ms.foldl processMatch s) := by
  induction ms generalizing s with
  | nil => exact h
  | cons m ms ih => exact ih (goodState_processMatch m h)

/-! ### Frame lemmas at the match and match-list level -/

lemma processMatch_elo_ne {t : String} (s : EloState) (m : MatchRec)
    (h1 : t ∉ m.red_teams) (h2 : t ∉ m.blue_teams) :
    (processMatch s m).elo t = s.elo t := by
  unfold processMatch
  split
  · rfl
  · split
    · exact update_elo_ne false s h1 h2
    · split
      · exact update_elo_ne false s h2 h1
      · exact update_elo_ne true s h1 h2

lemma processMatch_opp_ne {t : String} (s : EloState) (m : MatchRec)
    (h1 : t ∉ m.red_teams) (h2 : t ∉ m.blue_teams) :
    (processMatch s m).opp t = s.opp t := by
  unfold processMatch
  split
  · rfl
  · split
    · exact update_opp_ne false s h1 h2
    · split
      · exact update_opp_ne false s h2 h1
      · exact update_opp_ne true s h1 h2

lemma foldl_elo_ne {t : String} {ms : List MatchRec} (s : EloState)
    (h : ∀ m ∈ ms, t ∉ m.red_teams ∧ t ∉ m.blue_teams) :
    (ms.foldl processMatch s).elo t = s.elo t := by
  induction ms generalizing s with
  | nil => rfl
  | cons m ms ih =>
    rw [List.foldl_cons]
    rw [ih _ (fun m' hm' => h m' (List.mem_cons_of_mem m hm'))]
    exact processMatch_elo_ne s m (h m (List.mem_cons_self m ms)).1
      (h m (List.mem_cons_self m ms)).2

lemma foldl_opp_ne {t : String} {ms : List MatchRec} (s : EloState)
    (h : ∀ m ∈ ms, t ∉ m.red_teams ∧ t ∉ m.blue_teams) :
    (ms.foldl processMatch s).opp t = s.opp t := by
  induction ms generalizing s with
  | nil => rfl
  | cons m ms ih =>
    rw [List.foldl_cons]
    rw [ih _ (fun m' hm' => h m' (List.mem_cons_of_mem m hm'))]
    exact processMatch_opp_ne s m (h m (List.mem_cons_self m ms)).1
      (h m (List.mem_cons_self m ms)).2

/-! ### Further helpers -/

lemma pyRound_baseline (d : ℕ) : pyRound INITIAL_ELO d = INITIAL_ELO := by
  rw [INITIAL_ELO_eq]
  exact pyRound_eq_self (1500 * 10 ^ d) (by push_cast; ring)

lemma sosVal_eq {s : EloState} {t : String} (h1 : t ∈ s.oppKeys)
    (h2 : s.opp t ≠ []) :
    sosVal s t = ((s.opp t).map s.elo).sum / ((s.opp t).length : ℝ) := by
  unfold sosVal
  rw [if_pos h1, if_pos h2]

lemma rescaleTable_names (rows : List Row) :
    (rescaleTable rows).map Row.team_name = rows.map Row.team_name := by
  unfold rescaleTable
  dsimp only
  split
  · split
    · simp [List.map_map, Function.comp]
    · rfl
  · rfl

/-! ### The claims -/

/-- C3: once the entire match loop has finished, the schedule-strength of a
team with at least one recorded opponent equals the arithmetic mean, with
repetition, of the final post-all-matches ratings of its opponents, and the
schedule-strength of a team with zero recorded opponents is the baseline
constant 1500. -/
theorem sos_is_mean_of_final_opponent_ratings (ms : List MatchRec)
    (all_teams : List String) (t : String) :
    sosVal (ms.foldl processMatch (initState all_teams)) t =
      if (ms.foldl processMatch (initState all_teams)).opp t = [] then 1500
      else (((ms.foldl processMatch (initState all_teams)).opp t).map
              (ms.foldl processMatch (initState all_teams)).elo).sum /
            (((ms.foldl processMatch (initState all_teams)).opp t).length : ℝ) := by
  set s := ms.foldl processMatch (initState all_teams) with hs
  have hg : goodState s := goodState_foldl (goodState_initState all_teams)
  by_cases h : s.opp t = []
  · rw [if_pos h]
    unfold sosVal
    have hk : t ∉ s.oppKeys := fun hk => (hg t).mp hk h
    rw [if_neg hk, INITIAL_ELO_eq]
  · rw [if_neg h]
    exact sosVal_eq ((hg t).mpr h) h

/-- C9: when the ingested match log is empty the cycle produces no output
table at all — the pipeline stops before computing ratings, so the previously
published table is left untouched. -/
theorem empty_log_produces_no_output (all_teams : List String) :
    run_once_table [] all_teams = none := rfl

/-- C8: a match record in which either alliance roster is empty is silently
skipped; the whole rating state (ratings, opponent lists and both key sets)
is left unchanged. -/
theorem empty_roster_match_is_noop (s : EloState) (m : MatchRec)
    (h : m.red_teams = [] ∨ m.blue_teams = []) : processMatch s m = s := by
  unfold processMatch
  rw [if_pos h]

theorem empty_roster_match_is_noop_witness :
    processMatch (initState ["A"]) ⟨[], ["B"], 7, 0⟩ = initState ["A"] :=
  empty_roster_match_is_noop _ _ (Or.inl rfl)

/-- C7: a drawn 1v1 match (equal scores) between two teams of equal prior
rating leaves every rating unchanged: expected and actual score are both 0.5,
so the pairwise delta is zero. -/
theorem draw_equal_ratings_unchanged (s : EloState) (a b : String) (p q : ℤ)
    (heq : s.elo a = s.elo b) (hpq : p = q) (t : String) :
    (processMatch s ⟨[a], [b], p, q⟩).elo t = s.elo t := by
  subst hpq
  have hproc : processMatch s ⟨[a], [b], p, p⟩ = updatePair true s a b := by
    unfold processMatch
    rw [if_neg (by simp), if_neg (by simp), if_neg (by simp)]
    rfl
  rw [hproc]
  have hea : expScore (s.elo a) (s.elo b) = 1 / 2 := by
    rw [← heq, expScore_self]
  norm_num [updatePair, hea, K_FACTOR_eq]
  split_ifs with h1 h2 h3 <;> simp_all

theorem draw_equal_ratings_unchanged_witness :
    (processMatch (initState []) ⟨["A"], ["B"], 4, 4⟩).elo "Z"
      = (initState []).elo "Z" :=
  draw_equal_ratings_unchanged (initState []) "A" "B" 4 4 rfl rfl "Z"

/-- C6: in a single match whose alliances are non-empty and disjoint and where
one alliance strictly outscores the other, every member of the winning
alliance ends the match with a strictly higher rating than before it, and
every member of the losing alliance with a strictly lower one. -/
theorem strict_win_moves_every_rating (s : EloState) (m : MatchRec)
    (hd : ∀ x ∈ m.red_teams, x ∉ m.blue_teams)
    (hr : m.red_teams ≠ []) (hb : m.blue_teams ≠ []) :
    (m.blue_score < m.red_score →
      (∀ a ∈ m.red_teams, s.elo a < (processMatch s m).elo a) ∧
      (∀ b ∈ m.blue_teams, (processMatch s m).elo b < s.elo b)) ∧
    (m.red_score < m.blue_score →
      (∀ a ∈ m.blue_teams, s.elo a < (processMatch s m).elo a) ∧
      (∀ b ∈ m.red_teams, (processMatch s m).elo b < s.elo b)) := by
  constructor
  · intro hs
    have hproc : processMatch s m = update s m.red_teams m.blue_teams false := by
      unfold processMatch
      rw [if_neg (by push_neg; exact ⟨hr, hb⟩), if_pos hs]
    rw [hproc]
    constructor
    · intro a ha
      exact update_winner_lt s ha (hd a ha) hb
    · intro b hbm
      exact update_loser_lt s (fun hbw => hd b hbw hbm) hbm hr
  · intro hs
    have hproc : processMatch s m = update s m.blue_teams m.red_teams false := by
      unfold processMatch
      rw [if_neg (by push_neg; exact ⟨hr, hb⟩),
        if_neg (not_lt.mpr (le_of_lt hs)), if_pos hs]
    rw [hproc]
    constructor
    · intro a ha
      exact update_winner_lt s ha (fun har => hd a har ha) hr
    · intro b hbm
      exact update_loser_lt s (fun hbw => hd b hbm hbw) hbm hb

theorem strict_win_moves_every_rating_witness :
    (initState ["A", "B"]).elo "A"
      < (processMatch (initState ["A", "B"]) ⟨["A"], ["B"], 2, 1⟩).elo "A" :=
  ((strict_win_moves_every_rating (initState ["A", "B"]) ⟨["A"], ["B"], 2, 1⟩
    (by decide) (by decide) (by decide)).1 (by norm_num)).1 "A" (by decide)

/-- C4: the output assembler drops a row exactly when its rating equals the
baseline 1500 and its schedule-strength equals the baseline 1500; as a
consequence, a team that appears in the roster but participates in no valid
match never appears in the published table. -/
theorem baseline_exclusion (ms : List MatchRec) (all_teams : List String)
    (t : String) (rows : List Row) (r : Row)
    (h : ∀ m ∈ ms, t ∉ m.red_teams ∧ t ∉ m.blue_teams) :
    (r ∈ filterTable rows ↔
        r ∈ rows ∧ ¬(r.elo = 1500 ∧ r.strength_of_schedule = 1500)) ∧
    t ∉ ((run_once_table ms all_teams).getD []).map Row.team_name := by
  constructor
  · unfold filterTable
    rw [List.mem_filter, decide_eq_true_eq, INITIAL_ELO_eq]
  · by_cases hms : ms.isEmpty
    · unfold run_once_table
      rw [if_pos hms]
      simp
    · unfold run_once_table
      rw [if_neg hms]
      simp only [Option.getD_some]
      rw [rescaleTable_names]
      intro hmem
      rw [List.mem_map] at hmem
      obtain ⟨r', hrf, hrt⟩ := hmem
      unfold filterTable at hrf
      rw [List.mem_filter] at hrf
      obtain ⟨hrrows, hpred⟩ := hrf
      unfold compute_elo_sos at hrrows
      rw [List.mem_map] at hrrows
      obtain ⟨k, hk, hkr⟩ := hrrows
      have hkt : k = t := by rw [← hrt, ← hkr]
      subst hkt
      set s := ms.foldl processMatch (initState all_teams) with hsdef
      have helo : s.elo k = INITIAL_ELO := foldl_elo_ne _ h
      have hopp : s.opp k = [] := foldl_opp_ne _ h
      have hg : goodState s := goodState_foldl (goodState_initState all_teams)
      have hsos : sosVal s k = INITIAL_ELO := by
        unfold sosVal
        rw [if_neg (fun hin => (hg k).mp hin hopp)]
      rw [decide_eq_true_eq] at hpred
      apply hpred
      rw [← hkr]
      constructor
      · show pyRound (s.elo k) 2 = INITIAL_ELO
        rw [helo, pyRound_baseline]
      · show pyRound (sosVal s k) 4 = INITIAL_ELO
        rw [hsos, pyRound_baseline]

theorem baseline_exclusion_witness :
    ((⟨"X", 1500, 1500⟩ : Row) ∈ filterTable [⟨"X", 1500, 1500⟩] ↔
        (⟨"X", 1500, 1500⟩ : Row) ∈ [(⟨"X", 1500, 1500⟩ : Row)] ∧
          ¬((⟨"X", 1500, 1500⟩ : Row).elo = 1500 ∧
            (⟨"X", 1500, 1500⟩ : Row).strength_of_schedule = 1500)) ∧
    "C" ∉ ((run_once_table [⟨["A"], ["B"], 1, 0⟩] ["A", "B", "C"]).getD []).map
        Row.team_name :=
  baseline_exclusion [⟨["A"], ["B"], 1, 0⟩] ["A", "B", "C"] "C"
    [⟨"X", 1500, 1500⟩] ⟨"X", 1500, 1500⟩
    (by
      intro m hm
      rw [List.mem_singleton] at hm
      subst hm
      exact ⟨by decide, by decide⟩)

/-! ### The canonical 1v1 scenario: A beats B 10-0, both starting at 1500 -/

lemma one_match_state :
    ([(⟨["A"], ["B"], 10, 0⟩ : MatchRec)]).foldl processMatch (initState ["A", "B"])
      = updatePair false (initState ["A", "B"]) "A" "B" := by
  rw [List.foldl_cons, List.foldl_nil]
  unfold processMatch
  rw [if_neg (by decide), if_pos (by decide)]
  rw [update_cons, update_nil, updateOne_cons, updateOne_nil]

lemma one_match_eloA :
    (updatePair false (initState ["A", "B"]) "A" "B").elo "A" = 1516 := by
  rw [updatePair_win_elo_a _ (by decide)]
  show INITIAL_ELO + 32 * (1 - expScore INITIAL_ELO INITIAL_ELO) = 1516
  rw [expScore_self, INITIAL_ELO_eq]
  norm_num

lemma one_match_eloB :
    (updatePair false (initState ["A", "B"]) "A" "B").elo "B" = 1484 := by
  rw [updatePair_win_elo_b _ (by decide)]
  show INITIAL_ELO - 32 * (1 - expScore INITIAL_ELO INITIAL_ELO) = 1484
  rw [expScore_self, INITIAL_ELO_eq]
  norm_num

lemma one_match_oppA :
    (updatePair false (initState ["A", "B"]) "A" "B").opp "A" = ["B"] := by
  rw [updatePair_opp_a _ _ (by decide)]
  rfl

lemma one_match_oppB :
    (updatePair false (initState ["A", "B"]) "A" "B").opp "B" = ["A"] := by
  rw [updatePair_opp_b _ _ (by decide)]
  rfl

lemma one_match_sosA :
    sosVal (updatePair false (initState ["A", "B"]) "A" "B") "A" = 1484 := by
  have h1 : "A" ∈ (updatePair false (initState ["A", "B"]) "A" "B").oppKeys := by
    rw [updatePair_oppKeys]
    decide
  have h2 : (updatePair false (initState ["A", "B"]) "A" "B").opp "A" ≠ [] := by
    rw [one_match_oppA]
    simp
  rw [sosVal_eq h1 h2, one_match_oppA, List.map_cons, List.map_nil, List.sum_cons,
    List.sum_nil, one_match_eloB]
  norm_num

lemma one_match_sosB :
    sosVal (updatePair false (initState ["A", "B"]) "A" "B") "B" = 1516 := by
  have h1 : "B" ∈ (updatePair false (initState ["A", "B"]) "A" "B").oppKeys := by
    rw [updatePair_oppKeys]
    decide
  have h2 : (updatePair false (initState ["A", "B"]) "A" "B").opp "B" ≠ [] := by
    rw [one_match_oppB]
    simp
  rw [sosVal_eq h1 h2, one_match_oppB, List.map_cons, List.map_nil, List.sum_cons,
    List.sum_nil, one_match_eloA]
  norm_num

/-- C1: every ordered pairwise update of winner `a` against loser `b` uses
expected score `1 / (1 + 10 ^ ((rating b - rating a) / 400))` from the current
ratings, actual score 1.0 for `a` and 0.0 for `b` (0.5 each for a draw), and
increments each rating by `K * (actual - expected)` with `K = 32`; in the
concrete scenario where two 1500-rated teams meet 1v1 and A beats B 10-0, the
published ratings are exactly 1516.0 for A and 1484.0 for B. -/
theorem pairwise_elo_update_formula (s : EloState) (a b : String) (hab : a ≠ b) :
    ((updatePair false s a b).elo a
        = s.elo a + 32 * (1.0 - 1 / (1 + (10 : ℝ) ^ ((s.elo b - s.elo a) / 400))) ∧
      (updatePair false s a b).elo b
        = s.elo b + 32 * (0.0 - (1 - 1 / (1 + (10 : ℝ) ^ ((s.elo b - s.elo a) / 400)))) ∧
      (updatePair true s a b).elo a
        = s.elo a + 32 * (0.5 - 1 / (1 + (10 : ℝ) ^ ((s.elo b - s.elo a) / 400))) ∧
      (updatePair true s a b).elo b
        = s.elo b + 32 * (0.5 - (1 - 1 / (1 + (10 : ℝ) ^ ((s.elo b - s.elo a) / 400))))) ∧
    compute_elo_sos [⟨["A"], ["B"], 10, 0⟩] ["A", "B"]
      = [⟨"A", 1516, 1484⟩, ⟨"B", 1484, 1516⟩] := by
  constructor
  · refine ⟨?_, ?_, ?_, ?_⟩
    · rw [updatePair_elo_a false s hab]
      norm_num [K_FACTOR_eq, expScore]
    · rw [updatePair_elo_b false s hab]
      norm_num [K_FACTOR_eq, expScore]
    · rw [updatePair_elo_a true s hab]
      norm_num [K_FACTOR_eq, expScore]
    · rw [updatePair_elo_b true s hab]
      norm_num [K_FACTOR_eq, expScore]
  · have hkeys :
        (updatePair false (initState ["A", "B"]) "A" "B").eloKeys = ["A", "B"] := by
      rw [updatePair_eloKeys]
      decide
    have p1 : pyRound (1516 : ℝ) 2 = 1516 := pyRound_eq_self 151600 (by norm_num)
    have p2 : pyRound (1484 : ℝ) 2 = 1484 := pyRound_eq_self 148400 (by norm_num)
    have p3 : pyRound (1484 : ℝ) 4 = 1484 := pyRound_eq_self 14840000 (by norm_num)
    have p4 : pyRound (1516 : ℝ) 4 = 1516 := pyRound_eq_self 15160000 (by norm_num)
    simp only [compute_elo_sos]
    rw [one_match_state, hkeys, List.map_cons, List.map_cons, List.map_nil,
      one_match_eloA, one_match_eloB, one_match_sosA, one_match_sosB, p1, p2, p3, p4]

theorem pairwise_elo_update_formula_witness :
    compute_elo_sos [⟨["A"], ["B"], 10, 0⟩] ["A", "B"]
      = [⟨"A", 1516, 1484⟩, ⟨"B", 1484, 1516⟩] :=
  (pairwise_elo_update_formula (initState []) "X" "Y" (by decide)).2

/-! ### The baseline-draw scenario: A draws B 3-3, both starting at 1500 -/

lemma draw_match_state :
    ([(⟨["A"], ["B"], 3, 3⟩ : MatchRec)]).foldl processMatch (initState ["A", "B"])
      = updatePair true (initState ["A", "B"]) "A" "B" := by
  rw [List.foldl_cons, List.foldl_nil]
  unfold processMatch
  rw [if_neg (by decide), if_neg (by decide), if_neg (by decide)]
  rw [update_cons, update_nil, updateOne_cons, updateOne_nil]

lemma draw_match_eloA :
    (updatePair true (initState ["A", "B"]) "A" "B").elo "A" = 1500 := by
  rw [updatePair_elo_a true _ (by decide)]
  show INITIAL_ELO + K_FACTOR * ((if (true : Bool) then (0.5 : ℝ) else 1.0)
    - expScore INITIAL_ELO INITIAL_ELO) = 1500
  rw [expScore_self, INITIAL_ELO_eq, K_FACTOR_eq]
  norm_num

lemma draw_match_eloB :
    (updatePair true (initState ["A", "B"]) "A" "B").elo "B" = 1500 := by
  rw [updatePair_elo_b true _ (by decide)]
  show INITIAL_ELO + K_FACTOR * ((if (true : Bool) then (0.5 : ℝ) else 0.0)
    - (1 - expScore INITIAL_ELO INITIAL_ELO)) = 1500
  rw [expScore_self, INITIAL_ELO_eq, K_FACTOR_eq]
  norm_num

lemma draw_match_oppA :
    (updatePair true (initState ["A", "B"]) "A" "B").opp "A" = ["B"] := by
  rw [updatePair_opp_a _ _ (by decide)]
  rfl

lemma draw_match_oppB :
    (updatePair true (initState ["A", "B"]) "A" "B").opp "B" = ["A"] := by
  rw [updatePair_opp_b _ _ (by decide)]
  rfl

lemma draw_match_sosA :
    sosVal (updatePair true (initState ["A", "B"]) "A" "B") "A" = 1500 := by
  have h1 : "A" ∈ (updatePair true (initState ["A", "B"]) "A" "B").oppKeys := by
    rw [updatePair_oppKeys]
    decide
  have h2 : (updatePair true (initState ["A", "B"]) "A" "B").opp "A" ≠ [] := by
    rw [draw_match_oppA]
    simp
  rw [sosVal_eq h1 h2, draw_match_oppA, List.map_cons, List.map_nil, List.sum_cons,
    List.sum_nil, draw_match_eloB]
  norm_num

lemma draw_match_sosB :
    sosVal (updatePair true (initState ["A", "B"]) "A" "B") "B" = 1500 := by
  have h1 : "B" ∈ (updatePair true (initState ["A", "B"]) "A" "B").oppKeys := by
    rw [updatePair_oppKeys]
    decide
  have h2 : (updatePair true (initState ["A", "B"]) "A" "B").opp "B" ≠ [] := by
    rw [draw_match_oppB]
    simp
  rw [sosVal_eq h1 h2, draw_match_oppB, List.map_cons, List.map_nil, List.sum_cons,
    List.sum_nil, draw_match_eloA]
  norm_num

lemma draw_match_rows :
    compute_elo_sos [⟨["A"], ["B"], 3, 3⟩] ["A", "B"]
      = [⟨"A", 1500, 1500⟩, ⟨"B", 1500, 1500⟩] := by
  have hkeys :
      (updatePair true (initState ["A", "B"]) "A" "B").eloKeys = ["A", "B"] := by
    rw [updatePair_eloKeys]
    decide
  have p2 : pyRound (1500 : ℝ) 2 = 1500 := pyRound_eq_self 150000 (by norm_num)
  have p4 : pyRound (1500 : ℝ) 4 = 1500 := pyRound_eq_self 15000000 (by norm_num)
  simp only [compute_elo_sos]
  rw [draw_match_state, hkeys, List.map_cons, List.map_cons, List.map_nil,
    draw_match_eloA, draw_match_eloB, draw_match_sosA, draw_match_sosB, p2, p4]

/-- C10: when the only valid match is a 3-3 draw between two teams at the
baseline rating 1500, both teams end with published rating exactly 1500 and
schedule-strength exactly 1500, so the exclusion filter removes both and the
published table is empty — even though each team played a valid match. -/
theorem baseline_draw_publishes_empty_table :
    compute_elo_sos [⟨["A"], ["B"], 3, 3⟩] ["A", "B"]
        = [⟨"A", 1500, 1500⟩, ⟨"B", 1500, 1500⟩] ∧
    run_once_table [⟨["A"], ["B"], 3, 3⟩] ["A", "B"] = some [] := by
  refine ⟨draw_match_rows, ?_⟩
  unfold run_once_table
  rw [if_neg (by decide), draw_match_rows]
  have hfilter : filterTable [⟨"A", 1500, 1500⟩, ⟨"B", 1500, 1500⟩] = [] := by
    unfold filterTable
    rw [List.filter_cons_of_neg, List.filter_cons_of_neg, List.filter_nil]
    · simp [INITIAL_ELO_eq]
    · simp [INITIAL_ELO_eq]
  rw [hfilter]
  rfl

/-- C5: if more than one team remains and the observed schedule-strength
range is non-degenerate (max > min), every schedule-strength value `v` is
replaced by `0.30 + (v - min) / (max - min) * 0.50` rounded to 4 decimal
places; if max = min, or at most one team remains, the rescale step is
skipped and raw values are kept; for raw values {1500, 1600, 1700} the
rescaled values are exactly {0.30, 0.55, 0.80}. -/
theorem sos_rescale_policy (rows : List Row) :
    (1 < rows.length →
      listMin (rows.map (fun r => r.strength_of_schedule))
          < listMax (rows.map (fun r => r.strength_of_schedule)) →
      rescaleTable rows = rows.map (fun r =>
        { r with strength_of_schedule :=
            pyRound (0.30 + (r.strength_of_schedule
                  - listMin (rows.map (fun r => r.strength_of_schedule)))
                / (listMax (rows.map (fun r => r.strength_of_schedule))
                  - listMin (rows.map (fun r => r.strength_of_schedule))) * 0.50) 4 })) ∧
    (listMax (rows.map (fun r => r.strength_of_schedule))
        = listMin (rows.map (fun r => r.strength_of_schedule)) →
      rescaleTable rows = rows) ∧
    (rows.length ≤ 1 → rescaleTable rows = rows) ∧
    rescaleTable [⟨"A", 1400, 1500⟩, ⟨"B", 1600, 1600⟩, ⟨"C", 1800, 1700⟩]
      = [⟨"A", 1400, 0.30⟩, ⟨"B", 1600, 0.55⟩, ⟨"C", 1800, 0.80⟩] := by
  refine ⟨?_, ?_, ?_, ?_⟩
  · intro h1 h2
    unfold rescaleTable
    dsimp only
    rw [if_pos h1, if_pos h2, List.map_map]
    rfl
  · intro h2
    unfold rescaleTable
    dsimp only
    by_cases h1 : 1 < rows.length
    · rw [if_pos h1, if_neg (by rw [h2]; exact lt_irrefl _)]
    · rw [if_neg h1]
  · intro h1
    unfold rescaleTable
    dsimp only
    rw [if_neg (not_lt.mpr h1)]
  · have hcol : ([⟨"A", 1400, 1500⟩, ⟨"B", 1600, 1600⟩, ⟨"C", 1800, 1700⟩] :
        List Row).map (fun r => r.strength_of_schedule) = [1500, 1600, 1700] := rfl
    have hmin : listMin [(1500 : ℝ), 1600, 1700] = 1500 := by
      norm_num [listMin, min_def]
    have hmax : listMax [(1500 : ℝ), 1600, 1700] = 1700 := by
      norm_num [listMax, max_def]
    have e1 : (0.30 : ℝ) + (1500 - 1500) / (1700 - 1500) * 0.50 = 0.30 := by norm_num
    have e2 : (0.30 : ℝ) + (1600 - 1500) / (1700 - 1500) * 0.50 = 0.55 := by norm_num
    have e3 : (0.30 : ℝ) + (1700 - 1500) / (1700 - 1500) * 0.50 = 0.80 := by norm_num
    have q1 : pyRound (0.30 : ℝ) 4 = 0.30 := pyRound_eq_self 3000 (by norm_num)
    have q2 : pyRound (0.55 : ℝ) 4 = 0.55 := pyRound_eq_self 5500 (by norm_num)
    have q3 : pyRound (0.80 : ℝ) 4 = 0.80 := pyRound_eq_self 8000 (by norm_num)
    unfold rescaleTable
    dsimp only
    rw [hcol, hmin, hmax, if_pos (by simp), if_pos (by norm_num)]
    dsimp only [List.map_cons, List.map_nil]
    rw [e1, e2, e3, q1, q2, q3]

theorem sos_rescale_policy_witness :
    rescaleTable [⟨"A", 1400, 1500⟩, ⟨"B", 1600, 1600⟩, ⟨"C", 1800, 1700⟩]
        = [⟨"A", 1400, 0.30⟩, ⟨"B", 1600, 0.55⟩, ⟨"C", 1800, 0.80⟩] ∧
    rescaleTable [⟨"A", 1600, 1500⟩] = [⟨"A", 1600, 1500⟩] :=
  ⟨(sos_rescale_policy [⟨"A", 1400, 1500⟩, ⟨"B", 1600, 1600⟩, ⟨"C", 1800, 1700⟩]).2.2.2,
   (sos_rescale_policy [⟨"A", 1600, 1500⟩]).2.2.1 (by simp)⟩

/-! ### The 2v2 scenario: winners {A,B} vs losers {C,D}, all starting at 1500

The code applies the four pairwise updates sequentially — (A,C), (A,D),
(B,C), (B,D) — mutating the ratings in between, so the two winners do NOT
receive the same delta.  The stage states below follow the loop order. -/

noncomputable def c2s0 : EloState := initState ["A", "B", "C", "D"]

noncomputable def c2s1 : EloState := updatePair false c2s0 "A" "C"

noncomputable def c2s2 : EloState := updatePair false c2s1 "A" "D"

noncomputable def c2s3 : EloState := updatePair false c2s2 "B" "C"

noncomputable def c2s4 : EloState := updatePair false c2s3 "B" "D"

lemma two_v_two_state :
    ([(⟨["A", "B"], ["C", "D"], 1, 0⟩ : MatchRec)]).foldl processMatch
        (initState ["A", "B", "C", "D"]) = c2s4 := by
  rw [List.foldl_cons, List.foldl_nil]
  unfold processMatch
  rw [if_neg (by decide), if_pos (by decide)]
  rfl

lemma c2s1_eloA : c2s1.elo "A" = 1516 := by
  unfold c2s1 c2s0
  rw [updatePair_win_elo_a _ (by decide)]
  show INITIAL_ELO + 32 * (1 - expScore INITIAL_ELO INITIAL_ELO) = 1516
  rw [expScore_self, INITIAL_ELO_eq]
  norm_num

lemma c2s1_eloC : c2s1.elo "C" = 1484 := by
  unfold c2s1 c2s0
  rw [updatePair_win_elo_b _ (by decide)]
  show INITIAL_ELO - 32 * (1 - expScore INITIAL_ELO INITIAL_ELO) = 1484
  rw [expScore_self, INITIAL_ELO_eq]
  norm_num

lemma c2s1_eloB : c2s1.elo "B" = 1500 := by
  unfold c2s1 c2s0
  rw [updatePair_elo_ne false _ (by decide) (by decide)]
  rfl

lemma c2s1_eloD : c2s1.elo "D" = 1500 := by
  unfold c2s1 c2s0
  rw [updatePair_elo_ne false _ (by decide) (by decide)]
  rfl

lemma c2s2_eloA : c2s2.elo "A" = 1516 + 32 * (1 - expScore 1516 1500) := by
  unfold c2s2
  rw [updatePair_win_elo_a _ (by decide), c2s1_eloA, c2s1_eloD]

lemma c2s2_eloD : c2s2.elo "D" = 1500 - 32 * (1 - expScore 1516 1500) := by
  unfold c2s2
  rw [updatePair_win_elo_b _ (by decide), c2s1_eloA, c2s1_eloD]

lemma c2s2_eloB : c2s2.elo "B" = 1500 := by
  unfold c2s2
  rw [updatePair_elo_ne false _ (by decide) (by decide)]
  exact c2s1_eloB

lemma c2s2_eloC : c2s2.elo "C" = 1484 := by
  unfold c2s2
  rw [updatePair_elo_ne false _ (by decide) (by decide)]
  exact c2s1_eloC

lemma c2_expScore_shift : expScore (1500 : ℝ) 1484 = expScore 1516 1500 :=
  expScore_congr_sub (by norm_num)

lemma c2s3_eloB : c2s3.elo "B" = 1500 + 32 * (1 - expScore 1516 1500) := by
  unfold c2s3
  rw [updatePair_win_elo_a _ (by decide), c2s2_eloB, c2s2_eloC, c2_expScore_shift]

lemma c2s3_eloC : c2s3.elo "C"
    = 1484 - 32 * (1 - expScore 1516 1500) := by
  unfold c2s3
  rw [updatePair_win_elo_b _ (by decide), c2s2_eloB, c2s2_eloC, c2_expScore_shift]

lemma c2s3_eloA : c2s3.elo "A" = 1516 + 32 * (1 - expScore 1516 1500) := by
  unfold c2s3
  rw [updatePair_elo_ne false _ (by decide) (by decide)]
  exact c2s2_eloA

lemma c2s3_eloD : c2s3.elo "D" = 1500 - 32 * (1 - expScore 1516 1500) := by
  unfold c2s3
  rw [updatePair_elo_ne false _ (by decide) (by decide)]
  exact c2s2_eloD

lemma c2s4_eloB : c2s4.elo "B"
    = (1500 + 32 * (1 - expScore 1516 1500))
      + 32 * (1 - expScore (1500 + 32 * (1 - expScore 1516 1500))
          (1500 - 32 * (1 - expScore 1516 1500))) := by
  unfold c2s4
  rw [updatePair_win_elo_a _ (by decide), c2s3_eloB, c2s3_eloD]

lemma c2s4_eloD : c2s4.elo "D"
    = (1500 - 32 * (1 - expScore 1516 1500))
      - 32 * (1 - expScore (1500 + 32 * (1 - expScore 1516 1500))
          (1500 - 32 * (1 - expScore 1516 1500))) := by
  unfold c2s4
  rw [updatePair_win_elo_b _ (by decide), c2s3_eloB, c2s3_eloD]

lemma c2s4_eloA : c2s4.elo "A" = 1516 + 32 * (1 - expScore 1516 1500) := by
  unfold c2s4
  rw [updatePair_elo_ne false _ (by decide) (by decide)]
  exact c2s3_eloA

lemma c2s4_eloC : c2s4.elo "C" = 1484 - 32 * (1 - expScore 1516 1500) := by
  unfold c2s4
  rw [updatePair_elo_ne false _ (by decide) (by decide)]
  exact c2s3_eloC

lemma c2s4_oppA : c2s4.opp "A" = ["C", "D"] := by
  unfold c2s4 c2s3 c2s2 c2s1 c2s0
  rw [updatePair_opp_ne _ _ (by decide) (by decide),
    updatePair_opp_ne _ _ (by decide) (by decide),
    updatePair_opp_a _ _ (by decide), updatePair_opp_a _ _ (by decide)]
  rfl

lemma c2s4_oppB : c2s4.opp "B" = ["C", "D"] := by
  unfold c2s4 c2s3 c2s2 c2s1 c2s0
  rw [updatePair_opp_a _ _ (by decide), updatePair_opp_a _ _ (by decide),
    updatePair_opp_ne _ _ (by decide) (by decide),
    updatePair_opp_ne _ _ (by decide) (by decide)]
  rfl

lemma c2s4_oppC : c2s4.opp "C" = ["A", "B"] := by
  unfold c2s4 c2s3 c2s2 c2s1 c2s0
  rw [updatePair_opp_ne _ _ (by decide) (by decide),
    updatePair_opp_b _ _ (by decide),
    updatePair_opp_ne _ _ (by decide) (by decide),
    updatePair_opp_b _ _ (by decide)]
  rfl

lemma c2s4_oppD : c2s4.opp "D" = ["A", "B"] := by
  unfold c2s4 c2s3 c2s2 c2s1 c2s0
  rw [updatePair_opp_b _ _ (by decide),
    updatePair_opp_ne _ _ (by decide) (by decide),
    updatePair_opp_b _ _ (by decide),
    updatePair_opp_ne _ _ (by decide) (by decide)]
  rfl

/-- C2 as stated is false on the code: in a 2v2 match, winners {A,B} over
losers {C,D} with all four teams at the baseline 1500, winner A's rating
delta differs from winner B's delta, because the four pairwise updates are
applied sequentially, mutating the shared ratings in between. -/
theorem equal_winner_deltas_counterexample :
    ¬((([(⟨["A", "B"], ["C", "D"], 1, 0⟩ : MatchRec)]).foldl processMatch
          (initState ["A", "B", "C", "D"])).elo "A"
        - (initState ["A", "B", "C", "D"]).elo "A"
      = (([(⟨["A", "B"], ["C", "D"], 1, 0⟩ : MatchRec)]).foldl processMatch
          (initState ["A", "B", "C", "D"])).elo "B"
        - (initState ["A", "B", "C", "D"]).elo "B") := by
  have h0 : ∀ t, (initState ["A", "B", "C", "D"]).elo t = 1500 := fun _ => rfl
  rw [two_v_two_state, c2s4_eloA, c2s4_eloB, h0, h0]
  have hE1 := expScore_lt_one (1516 : ℝ) 1500
  have hg : (0 : ℝ) < 32 * (1 - expScore 1516 1500) := by linarith
  have hFhalf : 1 / 2 < expScore (1500 + 32 * (1 - expScore (1516 : ℝ) 1500))
      (1500 - 32 * (1 - expScore (1516 : ℝ) 1500)) :=
    half_lt_expScore (by linarith)
  intro heq
  linarith

/-- C2 amended: the 2v2 match record produces exactly the four pairwise
updates (A,C), (A,D), (B,C), (B,D); each winner strictly gains rating and
each loser strictly loses; afterwards both winners' opponent lists are
[C, D] and both losers' opponent lists are [A, B]; each pairwise update is
zero-sum, so A's gain equals C's loss and B's gain equals D's loss — but
because the updates are sequential, A's delta and B's delta are NOT equal. -/
theorem two_v_two_sequential_pairwise_updates :
    ((1500 : ℝ) < (([(⟨["A", "B"], ["C", "D"], 1, 0⟩ : MatchRec)]).foldl processMatch
          (initState ["A", "B", "C", "D"])).elo "A" ∧
      (1500 : ℝ) < (([(⟨["A", "B"], ["C", "D"], 1, 0⟩ : MatchRec)]).foldl processMatch
          (initState ["A", "B", "C", "D"])).elo "B" ∧
      (([(⟨["A", "B"], ["C", "D"], 1, 0⟩ : MatchRec)]).foldl processMatch
          (initState ["A", "B", "C", "D"])).elo "C" < 1500 ∧
      (([(⟨["A", "B"], ["C", "D"], 1, 0⟩ : MatchRec)]).foldl processMatch
          (initState ["A", "B", "C", "D"])).elo "D" < 1500) ∧
    ((([(⟨["A", "B"], ["C", "D"], 1, 0⟩ : MatchRec)]).foldl processMatch
          (initState ["A", "B", "C", "D"])).opp "A" = ["C", "D"] ∧
      (([(⟨["A", "B"], ["C", "D"], 1, 0⟩ : MatchRec)]).foldl processMatch
          (initState ["A", "B", "C", "D"])).opp "B" = ["C", "D"] ∧
      (([(⟨["A", "B"], ["C", "D"], 1, 0⟩ : MatchRec)]).foldl processMatch
          (initState ["A", "B", "C", "D"])).opp "C" = ["A", "B"] ∧
      (([(⟨["A", "B"], ["C", "D"], 1, 0⟩ : MatchRec)]).foldl processMatch
          (initState ["A", "B", "C", "D"])).opp "D" = ["A", "B"]) ∧
    ((([(⟨["A", "B"], ["C", "D"], 1, 0⟩ : MatchRec)]).foldl processMatch
          (initState ["A", "B", "C", "D"])).elo "A" - 1500
        = 1500 - (([(⟨["A", "B"], ["C", "D"], 1, 0⟩ : MatchRec)]).foldl processMatch
          (initState ["A", "B", "C", "D"])).elo "C") ∧
    ((([(⟨["A", "B"], ["C", "D"], 1, 0⟩ : MatchRec)]).foldl processMatch
          (initState ["A", "B", "C", "D"])).elo "B" - 1500
        = 1500 - (([(⟨["A", "B"], ["C", "D"], 1, 0⟩ : MatchRec)]).foldl processMatch
          (initState ["A", "B", "C", "D"])).elo "D") ∧
    (([(⟨["A", "B"], ["C", "D"], 1, 0⟩ : MatchRec)]).foldl processMatch
          (initState ["A", "B", "C", "D"])).elo "A" - 1500
      ≠ (([(⟨["A", "B"], ["C", "D"], 1, 0⟩ : MatchRec)]).foldl processMatch
          (initState ["A", "B", "C", "D"])).elo "B" - 1500 := by
  have hE1 := expScore_lt_one (1516 : ℝ) 1500
  have hg : (0 : ℝ) < 32 * (1 - expScore 1516 1500) := by linarith
  have hFhalf : 1 / 2 < expScore (1500 + 32 * (1 - expScore (1516 : ℝ) 1500))
      (1500 - 32 * (1 - expScore (1516 : ℝ) 1500)) :=
    half_lt_expScore (by linarith)
  have hF1 := expScore_lt_one (1500 + 32 * (1 - expScore (1516 : ℝ) 1500))
      (1500 - 32 * (1 - expScore (1516 : ℝ) 1500))
  rw [two_v_two_state, c2s4_eloA, c2s4_eloB, c2s4_eloC, c2s4_eloD,
    c2s4_oppA, c2s4_oppB, c2s4_oppC, c2s4_oppD]
  refine ⟨⟨by linarith, by linarith, by linarith, by linarith⟩,
    ⟨rfl, rfl, rfl, rfl⟩, by ring, by ring, ?_⟩
  intro heq
  linarith

end VexRankings
